import Mathlib

/-!
Shallow embedding of the render3 view compiler
(packages/compiler/src/render3/view/compiler.ts) and proofs about it.

The output expression AST (the o.* module of the source) is modelled by the
inductive types OExpr and OStmt below.  External collaborators that live
outside the excerpted file (constant pool, template compiler, factory
compiler, binding converters, css shim) are modelled as components of an
Externals record, faithful to their boundary contracts in the spec.
-/

mutual

/-- Output-AST expressions, mirroring the o.Expression shapes the compiler
builds: literals, variables, literal arrays and maps, external references,
calls, property reads, assignments, additions, logical and, and function
expressions. -/
inductive OExpr where
  | lit (s : String)
  | litNum (n : Nat)
  | litUndefined
  | litNull
  | boolLit (b : Bool)
  | varRef (name : String)
  | litArr (xs : List OExpr)
  | litMap (entries : List (String × OExpr))
  | imp (name : String)
  | call (f : OExpr) (args : List OExpr)
  | prop (e : OExpr) (name : String)
  | assign (target value : OExpr)
  | plus (a b : OExpr)
  | andE (a b : OExpr)
  | fnE (params : List String) (body : List OStmt) (name : Option String)
  | wrapped (id : Nat)

/-- Output-AST statements: expression statements, final variable
declarations, untyped variable declarations, render-flag-gated blocks and
return statements. -/
inductive OStmt where
  | expr (e : OExpr)
  | declFinal (name : String) (value : OExpr)
  | declVar (name : String)
  | renderFlagIf (flag : Nat) (body : List OStmt)
  | ret (e : OExpr)

end

/-- Splits a character list at the first occurrence of c, returning the
characters strictly before and strictly after it, or none when c does not
occur.  This models a greedy regex fragment of the form open ([^close]+)
close as well as String.indexOf based splitting. -/
def splitAtFirst (c : Char) : List Char → Option (List Char × List Char)
  | [] => none
  | x :: xs =>
    if x = c then some ([], xs)
    else
      match splitAtFirst c xs with
      | some (a, b) => some (x :: a, b)
      | none => none

/-- Splits a character list at the last occurrence of c. -/
def splitAtLast (c : Char) (cs : List Char) : Option (List Char × List Char) :=
  match splitAtFirst c cs.reverse with
  | some (x, y) => some (y.reverse, x.reverse)
  | none => none

/-- parseNamedProperty from the source, on character lists: the property
name lies between the first and the last dot and the unit after the last
dot when the two differ; after the single dot with an empty unit when they
coincide; both empty when there is no dot or the first dot is at index 0. -/
def parseNamedPropertyL (cs : List Char) : List Char × List Char :=
  match splitAtFirst '.' cs with
  | none => ([], [])
  | some (a, rest) =>
    if a = [] then ([], [])
    else
      match splitAtLast '.' rest with
      | some (b, c) => (b, c)
      | none => (rest, [])

/-- parseNamedProperty of the source on strings, returning the pair of the
property name and the unit. -/
def parseNamedProperty (name : String) : String × String :=
  let r := parseNamedPropertyL name.toList
  (String.mk r.1, String.mk r.2)

/-- Lowercasing of a string, modelling JavaScript toLowerCase on the ASCII
identifiers the compiler handles. -/
def lowercase (s : String) : String :=
  String.mk (s.toList.map Char.toLower)

/-- getStylingPrefix of the source: the first five characters of a binding
name, lowercased. -/
def getStylingStart (propName : String) : String :=
  lowercase (propName.take 5)

/-- A binding name is a styling binding exactly when its five-character
lowercased start equals "style" or "class" (the source tests the negation
with prefix !== "style" and prefix !== "class"). -/
def isStylingBinding (name : String) : Bool :=
  getStylingStart name == "style" || getStylingStart name == "class"

/-- Characters matched by the regex class [-\w]: ASCII letters, digits,
underscore and dash. -/
def wordOrDash (c : Char) : Bool :=
  c.isAlpha || c.isDigit || c = '_' || c = '-'

/-- The capture of the third alternative of HOST_REG_EXP, the animation
group: the regex engine scans the key left to right and the fragment
matches exactly when the maximal suffix of word-or-dash characters is
nonempty and is immediately preceded by an at sign; the captured group is
that at sign together with the suffix. -/
def animGroup (cs : List Char) : Option (List Char) :=
  let r := cs.reverse
  let t := r.takeWhile wordOrDash
  match r.drop t.length with
  | '@' :: _ => if t = [] then none else some ('@' :: t.reverse)
  | _ => none

/-- The three capture groups of HOST_REG_EXP: group one (a property binding
between square brackets), group two (an event between parentheses) and
group three (an animation trigger). -/
inductive HostMatchKind where
  | binding (name : List Char)
  | event (name : List Char)
  | animation (name : List Char)
deriving DecidableEq

/-- key.match(HOST_REG_EXP) of the source.  The first two alternatives are
anchored at the start of the key: a key opening with a square bracket
yields group one holding the nonempty run up to the first closing bracket,
a key opening with a parenthesis yields group two likewise; when the
anchored alternative fails the engine falls back to scanning for the
end-anchored animation alternative; no match at all yields none. -/
def matchHostKey (cs : List Char) : Option HostMatchKind :=
  match cs with
  | [] => (animGroup []).map .animation
  | c :: rest =>
    if c = '[' then
      match splitAtFirst ']' rest with
      | some (inner, _) =>
        if inner = [] then (animGroup (c :: rest)).map .animation
        else some (.binding inner)
      | none => (animGroup (c :: rest)).map .animation
    else if c = '(' then
      match splitAtFirst ')' rest with
      | some (inner, _) =>
        if inner = [] then (animGroup (c :: rest)).map .animation
        else some (.event inner)
      | none => (animGroup (c :: rest)).map .animation
    else (animGroup (c :: rest)).map .animation

/-- The classification a key receives inside parseHostBindings: property
with its extracted name, listener with its event name, animation with the
trigger (keeping its at sign), or static attribute. -/
inductive HostBindingClass where
  | property (name : String)
  | listener (name : String)
  | animation (name : String)
  | attr
deriving DecidableEq

/-- Classification of one host-binding key, following the branch order of
parseHostBindings: no regex match means a static attribute, group one a
property, group two a listener, group three an animation. -/
def classifyHostKey (key : String) : HostBindingClass :=
  match matchHostKey key.toList with
  | some (.binding n) => .property (String.mk n)
  | some (.event n) => .listener (String.mk n)
  | some (.animation n) => .animation (String.mk n)
  | none => .attr

/-- The four disjoint output maps of parseHostBindings. -/
structure ParsedHostBindings where
  attributes : List (String × String)
  listeners : List (String × String)
  properties : List (String × String)
  animations : List (String × String)
deriving DecidableEq

/-- Assignment into a JavaScript object modelled on an ordered association
list: an existing key keeps its position and receives the new value, a new
key is appended. -/
def objInsert (m : List (String × String)) (k v : String) : List (String × String) :=
  if (m.map Prod.fst).contains k then
    m.map (fun p => if p.1 = k then (k, v) else p)
  else m ++ [(k, v)]

/-- One iteration of the forEach loop of parseHostBindings. -/
def parseStep (acc : ParsedHostBindings) (kv : String × String) : ParsedHostBindings :=
  match classifyHostKey kv.1 with
  | .attr => { acc with attributes := objInsert acc.attributes kv.1 kv.2 }
  | .property n => { acc with properties := objInsert acc.properties n kv.2 }
  | .listener n => { acc with listeners := objInsert acc.listeners n kv.2 }
  | .animation n => { acc with animations := objInsert acc.animations n kv.2 }

/-- parseHostBindings of the source: fold the classification step over the
host map in iteration order, starting from four empty buckets. -/
def parseHostBindings (host : List (String × String)) : ParsedHostBindings :=
  host.foldl parseStep ⟨[], [], [], []⟩

/-- Key set of an ordered association list. -/
def keysOf (m : List (String × String)) : List String :=
  m.map Prod.fst

/-- View encapsulation modes of the core enum, with their numeric codes
Emulated = 0, Native = 1, None = 2, ShadowDom = 3. -/
inductive ViewEncapsulation where
  | Emulated
  | Native
  | None
  | ShadowDom
deriving DecidableEq

/-- Numeric code of an encapsulation mode, as serialized by o.literal. -/
def encCode : ViewEncapsulation → Nat
  | .Emulated => 0
  | .Native => 1
  | .None => 2
  | .ShadowDom => 3

/-- Change detection strategies of the core enum, OnPush = 0, Default = 1. -/
inductive ChangeDetectionStrategy where
  | OnPush
  | Default
deriving DecidableEq

/-- Numeric code of a change detection strategy. -/
def cdCode : ChangeDetectionStrategy → Nat
  | .OnPush => 0
  | .Default => 1

/-- An input map value: either a plain binding name or the two-element
tuple form for renamed inputs. -/
inductive InputValue where
  | single (bindingName : String)
  | tuple (publicName declaredName : String)
deriving DecidableEq

/-- Host metadata of a directive: static attributes, event listeners and
property bindings, each an ordered map in declaration order.  Listener and
property values are opaque identifiers standing for the parsed binding
expressions handed over by the external binding parser. -/
structure R3HostMetadata where
  attributes : List (String × String)
  listeners : List (String × Nat)
  properties : List (String × Nat)

/-- One content or view query of R3QueryMetadata: the instance property to
assign, whether only the first match is bound, the already-resolved
predicate expression, the descendants flag and the optional read
expression. -/
structure R3QueryMetadata where
  propertyName : String
  first : Bool
  predicate : OExpr
  descendants : Bool
  read : Option OExpr

/-- R3DirectiveMetadata: the canonical directive metadata consumed by the
definition assembler. -/
structure R3DirectiveMetadata where
  name : Option String
  type : OExpr
  typeArgumentCount : Nat
  selector : Option String
  deps : List Nat
  queries : List R3QueryMetadata
  usesOnChanges : Bool
  host : R3HostMetadata
  inputs : List (String × InputValue)
  outputs : List (String × String)
  usesInheritance : Bool
  exportAs : Option String
  providers : Option OExpr

/-- R3ComponentMetadata: directive metadata extended with the
component-only fields.  The template is an opaque node-list identifier
consumed by the external template compiler. -/
structure R3ComponentMetadata extends R3DirectiveMetadata where
  templateNodes : Nat
  viewQueries : List R3QueryMetadata
  directives : List (String × OExpr)
  pipes : List (String × OExpr)
  styles : List String
  encapsulation : Option ViewEncapsulation
  changeDetection : Option ChangeDetectionStrategy
  animations : Option OExpr
  viewProviders : Option OExpr
  wrapDirectivesAndPipesInClosure : Bool

/-- Modelled from the spec: the external collaborators the compiler calls
into but does not own.  factory and factoryStatements stand for the
factory compiler, parseSelectorToR3Selector for the selector parser,
firstSelectorAttrs for CssSelector.parse followed by getAttrs on the first
parsed selector, getConstLiteral for the constant pool interning boundary,
the template fields for the external template compiler (returning the
template function and its const and var slot counts and the directive and
pipe expressions actually used), shimStyles for the css scoping transform,
convertPropertyBinding and convertActionBinding for the expression
converter (returning desugaring statements plus the current-value
expression), and queryPredicate for the getQueryPredicate pooling helper.
Each is a pure function of its inputs, matching the synchronous,
deterministic boundary the spec describes. -/
structure Externals where
  factory : Option String → List Nat → OExpr
  factoryStatements : Option String → List Nat → List OStmt
  parseSelectorToR3Selector : Option String → OExpr
  firstSelectorAttrs : String → List (Option String)
  getConstLiteral : OExpr → Bool → OExpr
  templateFn : Nat → OExpr
  templateConstCount : Nat → Nat
  templateVarCount : Nat → Nat
  templateDirectivesUsed : Nat → List (String × OExpr) → List OExpr
  templatePipesUsed : Nat → List (String × OExpr) → List OExpr
  shimStyles : List String → List String
  convertPropertyBinding : Nat → List OStmt × OExpr
  convertActionBinding : Nat → List OStmt
  queryPredicate : OExpr → OExpr

/-- One dynamic styling binding registered with the styling builder: a
bound style property with its parsed unit, or a bound class. -/
inductive StylingEntry where
  | styleProp (propertyName unit : String) (expression : Nat)
  | classProp (className : String) (expression : Nat)
deriving DecidableEq

/-- Modelled from the spec: the state of the StylingBuilder of styling.ts,
which is not part of the excerpted file.  It accumulates the static style
and class attribute strings and the dynamic style and class bindings in
declaration order. -/
structure StylingBuilderState where
  styleAttr : Option String
  classAttr : Option String
  entries : List StylingEntry

/-- The empty styling builder created at the start of
baseDirectiveFields. -/
def initStylingBuilder : StylingBuilderState :=
  ⟨none, none, []⟩

/-- hasBindingsOrInitialValues of the styling builder: some styling work
exists. -/
def hasBindingsOrInitialValues (sb : StylingBuilderState) : Bool :=
  sb.styleAttr.isSome || sb.classAttr.isSome || !sb.entries.isEmpty

/-- The loop of baseDirectiveFields over the static host attributes: a
style attribute is registered on the styling builder, a class attribute
likewise, and every other attribute is collected in order into the
allOtherAttributes map. -/
def registerHostAttributes (attrs : List (String × String)) :
    StylingBuilderState × List (String × String) :=
  attrs.foldl
    (fun acc kv =>
      if kv.1 = "style" then ({ acc.1 with styleAttr := some kv.2 }, acc.2)
      else if kv.1 = "class" then ({ acc.1 with classAttr := some kv.2 }, acc.2)
      else (acc.1, acc.2 ++ [kv]))
    (initStylingBuilder, [])

/-- createHostAttributesArray of the source: the collected non-styling
static attributes flattened into an alternating name, value literal array,
or nothing when the array would be empty. -/
def createHostAttributesArray (attributes : List (String × String)) : Option OExpr :=
  let values := attributes.foldl (fun acc kv => acc ++ [OExpr.lit kv.1, OExpr.lit kv.2]) []
  if values.isEmpty then none else some (.litArr values)

/-- The initial host-variable slot count of baseDirectiveFields: the number
of bound host properties whose name is not a styling binding. -/
def hostVarsCountOf (meta : R3DirectiveMetadata) : Nat :=
  ((meta.host.properties.map Prod.fst).filter (fun name => !isStylingBinding name)).length

/-- bindingName.match(ATTR_REGEX) of the source, for the unanchored regex
matching attr. followed by one or more non-bracket characters: the engine
scans for the first position where the literal attr. is followed by at
least one character different from a closing square bracket, and the
capture is the maximal run of such characters. -/
def attrMatch : List Char → Option (List Char)
  | [] => none
  | c :: cs =>
    if (c :: cs).take 5 = ['a', 't', 't', 'r', '.'] then
      let grp := ((c :: cs).drop 5).takeWhile (fun ch => ch ≠ ']')
      if grp.isEmpty then attrMatch cs else some grp
    else attrMatch cs

/-- Result of getBindingNameAndInstruction: the possibly rewritten binding
name, the instruction reference to call, and the extra trailing
parameters. -/
structure BindingInstr where
  bindingName : String
  instruction : String
  extraParams : List OExpr

/-- getBindingNameAndInstruction of the source: an attr.-matching name is
rewritten to the captured attribute name and bound with elementAttribute;
any other name keeps elementProperty with a null sanitizer and the
nativeOnly flag as extra parameters. -/
def getBindingNameAndInstruction (bindingName : String) : BindingInstr :=
  match attrMatch bindingName.toList with
  | some attrName => ⟨String.mk attrName, "elementAttribute", []⟩
  | none => ⟨bindingName, "elementProperty", [.litNull, .boolLit true]⟩

/-- The update statements emitted for one non-styling host property
binding: the converter statements followed by the instruction call taking
the element index, the binding name and the bound current value. -/
def hostPropertyUpdateStmts (ext : Externals) (name : String) (expression : Nat) :
    List OStmt :=
  let conv := ext.convertPropertyBinding expression
  let bi := getBindingNameAndInstruction name
  conv.1 ++
    [.expr (.call (.imp bi.instruction)
      ([.varRef "elIndex", .lit bi.bindingName, .call (.imp "bind") [conv.2]] ++
        bi.extraParams))]

/-- createHostListeners of the source for one event binding: a listener
instruction call wrapping the converted handler in a named function of one
event parameter.  The sanitizeIdentifier helper of the metadata module is
outside the excerpt and is modelled as the identity on the already plain
event names considered here. -/
def hostListenerStmt (ext : Externals) (typeName : Option String)
    (eventName : String) (handler : Nat) : OStmt :=
  .expr (.call (.imp "listener")
    [.lit eventName,
     .fnE ["$event"] (ext.convertActionBinding handler)
       (typeName.map (fun t => t ++ "_" ++ eventName ++ "_HostBindingHandler"))])

/-- Modelled from the spec: the create-level instruction of the styling
builder, one elementStyling call registering the static class and style
strings when any is present, and nothing otherwise. -/
def stylingCreateStmts (sb : StylingBuilderState) : List OStmt :=
  if sb.styleAttr.isSome || sb.classAttr.isSome then
    [.expr (.call (.imp "elementStyling")
      [.lit (sb.classAttr.getD ""), .lit (sb.styleAttr.getD "")])]
  else []

/-- Modelled from the spec: one update-level styling instruction per
dynamic binding, in declaration order, a style binding carrying its
property name, converted expression and optional unit suffix, a class
binding carrying its class name and converted expression. -/
def stylingUpdateStmt (ext : Externals) : StylingEntry → OStmt
  | .styleProp p u e =>
    .expr (.call (.imp "elementStyleProp")
      ([.varRef "elIndex", .lit p, (ext.convertPropertyBinding e).2] ++
        (if u = "" then [] else [.lit u])))
  | .classProp c e =>
    .expr (.call (.imp "elementClassProp")
      [.varRef "elIndex", .lit c, (ext.convertPropertyBinding e).2])

/-- The slot-allocation instruction prepended to the create block when the
total host-variable count is nonzero. -/
def allocHostVarsStmt (total : Nat) : OStmt :=
  .expr (.call (.imp "allocHostVars") [.litNum total])

/-- The intermediate data of createHostBindingsFunction: the create and
update statement blocks, the threaded total host-variable count and the
final styling builder state. -/
structure HostBindingsData where
  createStatements : List OStmt
  updateStatements : List OStmt
  totalHostVarsCount : Nat
  styling : StylingBuilderState

/-- One iteration of the binding loop of createHostBindingsFunction: a
style-prefixed binding registers a style input with the parsed property
name and unit, a class-prefixed binding registers a class input with the
parsed property name, and every other binding contributes its update
statements. -/
def hostBindingStep (ext : Externals) (acc : StylingBuilderState × List OStmt)
    (b : String × Nat) : StylingBuilderState × List OStmt :=
  let st := getStylingStart b.1
  if st = "style" then
    let p := parseNamedProperty b.1
    ({ acc.1 with entries := acc.1.entries ++ [.styleProp p.1 p.2 b.2] }, acc.2)
  else if st = "class" then
    ({ acc.1 with entries := acc.1.entries ++ [.classProp (parseNamedProperty b.1).1 b.2] },
      acc.2)
  else
    (acc.1, acc.2 ++ hostPropertyUpdateStmts ext b.1 b.2)

/-- The body of createHostBindingsFunction: listener statements form the
create block, the binding loop splits property bindings into styling
registrations and ordinary update statements, the styling builder then
appends its create instruction and its update instructions, each styling
update instruction accounting for one host-variable slot in the threaded
total (modelled from the spec for the styling side, which lives in
styling.ts), and a nonzero total finally prepends the slot-allocation
instruction to the create block. -/
def hostBindingsLoop (ext : Externals) (meta : R3DirectiveMetadata)
    (sb0 : StylingBuilderState) : StylingBuilderState × List OStmt :=
  meta.host.properties.foldl (hostBindingStep ext) (sb0, [])

def hostBindingsData (ext : Externals) (meta : R3DirectiveMetadata)
    (sb0 : StylingBuilderState) (hostVarsCount : Nat) : HostBindingsData :=
  let sb := (hostBindingsLoop ext meta sb0).1
  let hasStyling := hasBindingsOrInitialValues sb
  let createStatements :=
    meta.host.listeners.map (fun kv => hostListenerStmt ext meta.name kv.1 kv.2) ++
      (if hasStyling then stylingCreateStmts sb else [])
  let updateStatements := (hostBindingsLoop ext meta sb0).2 ++
    (if hasStyling then sb.entries.map (stylingUpdateStmt ext) else [])
  let total := hostVarsCount + (if hasStyling then sb.entries.length else 0)
  ⟨if total ≠ 0 then allocHostVarsStmt total :: createStatements else createStatements,
   updateStatements, total, sb⟩

/-- createHostBindingsFunction of the source: when either block is
nonempty, a function of the render flags, the context and the element
index whose body gates the create block behind render flag 1 and the
update block behind render flag 2; null otherwise. -/
def createHostBindingsFunction (ext : Externals) (meta : R3DirectiveMetadata)
    (sb0 : StylingBuilderState) (hostVarsCount : Nat) : Option OExpr :=
  let d := hostBindingsData ext meta sb0 hostVarsCount
  if d.createStatements.isEmpty && d.updateStatements.isEmpty then none
  else
    some (.fnE ["rf", "ctx", "elIndex"]
      ((if d.createStatements.isEmpty then [] else [.renderFlagIf 1 d.createStatements]) ++
        (if d.updateStatements.isEmpty then [] else [.renderFlagIf 2 d.updateStatements]))
      (meta.name.map (fun n => n ++ "_HostBindings")))

/-- The host-bindings data as wired up by baseDirectiveFields: the styling
builder is first seeded with the static style and class host attributes
and the initial slot count is the number of non-styling bound host
properties. -/
def hostBindingsDataOf (ext : Externals) (meta : R3DirectiveMetadata) : HostBindingsData :=
  hostBindingsData ext meta (registerHostAttributes meta.host.attributes).1
    (hostVarsCountOf meta)

/-- The hostBindings definition-map entry as wired up by
baseDirectiveFields. -/
def hostBindingsEntry (ext : Externals) (meta : R3DirectiveMetadata) : Option OExpr :=
  createHostBindingsFunction ext meta (registerHostAttributes meta.host.attributes).1
    (hostVarsCountOf meta)

/-- The create block of a generated hostBindings function: the body of the
leading render-flag-one block, empty when there is none. -/
def hostBindingsCreateBlock (e : Option OExpr) : List OStmt :=
  match e with
  | some (.fnE _ (OStmt.renderFlagIf 1 blk :: _) _) => blk
  | _ => []

/-- createQueryDefinition of the source: a query instruction call taking
the slot index literal (null for content queries), the pooled predicate,
the descendants flag, and the read expression when present. -/
def createQueryDefinition (ext : Externals) (query : R3QueryMetadata)
    (idx : Option Nat) : OExpr :=
  let idxLit := match idx with
    | some i => OExpr.litNum i
    | none => OExpr.litNull
  .call (.imp "query")
    ([idxLit, ext.queryPredicate query.predicate, .boolLit query.descendants] ++
      (match query.read with
       | some r => [r]
       | none => []))

/-- createContentQueriesFunction of the source: when queries exist, a
function of the runtime directive index registering each query definition,
and null otherwise. -/
def createContentQueriesFunction (ext : Externals) (meta : R3DirectiveMetadata) :
    Option OExpr :=
  match meta.queries with
  | [] => none
  | _ =>
    some (.fnE ["dirIndex"]
      (meta.queries.map (fun query =>
        .expr (.call (.imp "registerContentQuery")
          [createQueryDefinition ext query none, .varRef "dirIndex"])))
      (meta.name.map (fun n => n ++ "_ContentQueries")))

/-- The argument of the loadQueryList call for the query at declaration
position idx: the bare queryStartIndex variable at position zero, and
queryStartIndex plus the position otherwise. -/
def contentQueryLoadArg (idx : Nat) : OExpr :=
  if idx > 0 then .plus (.varRef "queryStartIndex") (.litNum idx)
  else .varRef "queryStartIndex"

/-- The refresh statement for one content query at declaration position
idx: queryRefresh applied to the temporary assigned from loadQueryList,
conjoined with the assignment onto the directive instance property of the
first element or the full query list according to the first flag. -/
def contentQueryRefreshStmt (query : R3QueryMetadata) (idx : Nat) : OStmt :=
  .expr (.andE
    (.call (.imp "queryRefresh")
      [.assign (.varRef "_t") (.call (.imp "loadQueryList") [contentQueryLoadArg idx])])
    (.assign (.prop (.varRef "instance") query.propertyName)
      (if query.first then .prop (.varRef "_t") "first" else .varRef "_t")))

/-- createContentQueriesRefreshFunction of the source: when queries exist,
a function of the directive index and the query start index that first
declares the loaded instance, then (through the lazy temporary allocator,
triggered by the first query) the temporary, and then one refresh
statement per query in declaration order; null otherwise. -/
def createContentQueriesRefreshFunction (meta : R3DirectiveMetadata) : Option OExpr :=
  match meta.queries with
  | [] => none
  | _ =>
    some (.fnE ["dirIndex", "queryStartIndex"]
      ([.declFinal "instance" (.call (.imp "load") [.varRef "dirIndex"]),
        .declVar "_t"] ++
        meta.queries.enum.map (fun p => contentQueryRefreshStmt p.2 p.1))
      (meta.name.map (fun n => n ++ "_ContentQueriesRefresh")))

/-- createViewQueriesFunction of the source: a function of the render
flags and the context whose create block registers each view query at its
positional slot index and whose update block (opening with the lazily
allocated temporary) refreshes each query and assigns the result onto the
context property. -/
def createViewQueriesFunction (ext : Externals) (meta : R3ComponentMetadata) : OExpr :=
  let createStatements := meta.viewQueries.enum.map (fun p =>
    OStmt.expr (createQueryDefinition ext p.2 (some p.1)))
  let updateStatements :=
    (if meta.viewQueries.isEmpty then [] else [OStmt.declVar "_t"]) ++
      meta.viewQueries.enum.map (fun p =>
        OStmt.expr (.andE
          (.call (.imp "queryRefresh")
            [.assign (.varRef "_t") (.call (.imp "load") [.litNum p.1])])
          (.assign (.prop (.varRef "ctx") p.2.propertyName)
            (if p.2.first then .prop (.varRef "_t") "first" else .varRef "_t"))))
  .fnE ["rf", "ctx"]
    [.renderFlagIf 1 createStatements, .renderFlagIf 2 updateStatements]
    (meta.name.map (fun n => n ++ "_Query"))

/-- Modelled from the spec: one DefinitionMap.set call of the ordered
definition map of util.ts, which skips the entry when the value is
absent. -/
def dmEntry (key : String) (value : Option OExpr) : List (String × OExpr) :=
  match value with
  | some e => [(key, e)]
  | none => []

/-- Lookup of a field in the ordered definition map. -/
def dmLookup (key : String) (m : List (String × OExpr)) : Option OExpr :=
  (m.find? (fun p => p.1 == key)).map Prod.snd

/-- Modelled from the spec: mapToExpression of util.ts, serializing an
input or output map into a literal object; a tuple value for a renamed
input is kept as a two-element literal array when keepDeclared is set and
collapses to its public name otherwise, while a plain value stays a string
literal. -/
def mapToExpression (m : List (String × InputValue)) (keepDeclared : Bool) : OExpr :=
  .litMap (m.map (fun kv =>
    match kv.2 with
    | .single v => (kv.1, OExpr.lit v)
    | .tuple pub decl =>
      (kv.1, if keepDeclared then OExpr.litArr [.lit pub, .lit decl] else OExpr.lit pub)))

/-- Modelled from the spec: conditionallyCreateMapObjectLiteral of
util.ts, emitting the literal object map only when the map has at least
one key and nothing otherwise. -/
def conditionallyCreateMapObjectLiteral (m : List (String × InputValue))
    (keepDeclared : Bool) : Option OExpr :=
  if m.isEmpty then none else some (mapToExpression m keepDeclared)

/-- baseDirectiveFields of the source: the shared ordered field map (type,
selectors, factory, contentQueries, contentQueriesRefresh, attributes,
hostBindings, inputs, outputs and the conditional exportAs) together with
the hoisted factory statements. -/
def baseDirectiveFields (ext : Externals) (meta : R3DirectiveMetadata) :
    List (String × OExpr) × List OStmt :=
  let fields :=
    dmEntry "type" (some meta.type) ++
    dmEntry "selectors" (some (ext.parseSelectorToR3Selector meta.selector)) ++
    dmEntry "factory" (some (ext.factory meta.name meta.deps)) ++
    dmEntry "contentQueries" (createContentQueriesFunction ext meta) ++
    dmEntry "contentQueriesRefresh" (createContentQueriesRefreshFunction meta) ++
    dmEntry "attributes"
      (createHostAttributesArray (registerHostAttributes meta.host.attributes).2) ++
    dmEntry "hostBindings" (hostBindingsEntry ext meta) ++
    dmEntry "inputs" (conditionallyCreateMapObjectLiteral meta.inputs true) ++
    dmEntry "outputs"
      (conditionallyCreateMapObjectLiteral
        (meta.outputs.map (fun kv => (kv.1, InputValue.single kv.2))) false) ++
    dmEntry "exportAs" (meta.exportAs.map OExpr.lit)
  (fields, ext.factoryStatements meta.name meta.deps)

/-- The argument list of the ProvidersFeature call of addFeatures: the
providers expression, or an empty literal array when providers is absent,
followed by the viewProviders expression when present. -/
def providersFeatureArgs (providers viewProviders : Option OExpr) : List OExpr :=
  (match providers with
   | some p => [p]
   | none => [OExpr.litArr []]) ++
  (match viewProviders with
   | some v => [v]
   | none => [])

/-- The feature list of addFeatures in the order of the source: the
ProvidersFeature call when providers or viewProviders is present, the
inheritance feature when usesInheritance is set, and the on-changes
feature when the lifecycle flag is set. -/
def featureList (meta : R3DirectiveMetadata) (viewProviders : Option OExpr) : List OExpr :=
  (if meta.providers.isSome || viewProviders.isSome then
    [OExpr.call (.imp "ProvidersFeature") (providersFeatureArgs meta.providers viewProviders)]
   else []) ++
  (if meta.usesInheritance then [OExpr.imp "InheritDefinitionFeature"] else []) ++
  (if meta.usesOnChanges then [OExpr.imp "NgOnChangesFeature"] else [])

/-- addFeatures of the source: the features field is appended to the
definition map exactly when the feature list is nonempty.  The
viewProviders argument is the cast the source performs on component
metadata and is absent for plain directives. -/
def addFeatures (fields : List (String × OExpr)) (meta : R3DirectiveMetadata)
    (viewProviders : Option OExpr) : List (String × OExpr) :=
  let features := featureList meta viewProviders
  if features.isEmpty then fields else fields ++ [("features", OExpr.litArr features)]

/-- Result of compiling one directive: the ordered definition fields, the
hoisted statements and the metadata as it stands after the call (the
directive path performs no writes on it). -/
structure R3DirectiveCompileResult where
  fields : List (String × OExpr)
  statements : List OStmt
  metaAfter : R3DirectiveMetadata

/-- compileDirectiveFromMetadata of the source: the base fields plus
features; the input metadata is not written. -/
def compileDirectiveFromMetadata (ext : Externals) (meta : R3DirectiveMetadata) :
    R3DirectiveCompileResult :=
  let base := baseDirectiveFields ext meta
  ⟨addFeatures base.1 meta none, base.2, meta⟩

/-- Result of compiling one component: the ordered definition fields, the
hoisted statements and the metadata as it stands after the call, recording
the in-place reassignments of the encapsulation field the source
performs. -/
structure R3ComponentCompileResult where
  fields : List (String × OExpr)
  statements : List OStmt
  metaAfter : R3ComponentMetadata

/-- The encapsulation value the source leaves on the metadata: a missing
mode defaults to Emulated, and Emulated with an empty style list is
downgraded to None. -/
def resolveEncapsulation (enc : Option ViewEncapsulation) (styles : List String) :
    ViewEncapsulation :=
  let e := enc.getD .Emulated
  if styles.isEmpty && e == .Emulated then .None else e

/-- compileComponentFromMetadata of the source: the base directive fields
and features, then the conditional attrs entry from the first parsed
selector, the conditional viewQuery function, the template compilation
results (consts, vars, template), the conditional directives and pipes
arrays (each optionally wrapped in a closure), the conditional styles
array (shimmed under emulated encapsulation), the encapsulation code when
it differs from Emulated after default resolution and the empty-styles
downgrade, the conditional animations data and the conditional
changeDetection code.  The reassignments the source performs on
meta.encapsulation are recorded in metaAfter. -/
def compileComponentFromMetadata (ext : Externals) (meta : R3ComponentMetadata) :
    R3ComponentCompileResult :=
  let base := baseDirectiveFields ext meta.toR3DirectiveMetadata
  let fields0 := addFeatures base.1 meta.toR3DirectiveMetadata meta.viewProviders
  let attrsEntry :=
    match meta.selector with
    | some s =>
      let selectorAttributes := ext.firstSelectorAttrs s
      if selectorAttributes.isEmpty then []
      else
        [("attrs",
          ext.getConstLiteral
            (.litArr (selectorAttributes.map (fun v =>
              match v with
              | some x => OExpr.lit x
              | none => OExpr.litUndefined)))
            true)]
    | none => []
  let viewQueryEntry :=
    if meta.viewQueries.isEmpty then []
    else [("viewQuery", createViewQueriesFunction ext meta)]
  let directivesUsed := ext.templateDirectivesUsed meta.templateNodes meta.directives
  let directivesEntry :=
    if directivesUsed.isEmpty then []
    else
      [("directives",
        if meta.wrapDirectivesAndPipesInClosure then
          OExpr.fnE [] [.ret (.litArr directivesUsed)] none
        else OExpr.litArr directivesUsed)]
  let pipesUsed := ext.templatePipesUsed meta.templateNodes meta.pipes
  let pipesEntry :=
    if pipesUsed.isEmpty then []
    else
      [("pipes",
        if meta.wrapDirectivesAndPipesInClosure then
          OExpr.fnE [] [.ret (.litArr pipesUsed)] none
        else OExpr.litArr pipesUsed)]
  let enc1 := meta.encapsulation.getD .Emulated
  let stylesEntry :=
    if meta.styles.isEmpty then []
    else
      [("styles",
        OExpr.litArr
          ((if enc1 == .Emulated then ext.shimStyles meta.styles else meta.styles).map
            OExpr.lit))]
  let enc2 :=
    if meta.styles.isEmpty && enc1 == .Emulated then ViewEncapsulation.None else enc1
  let encEntry :=
    if enc2 == .Emulated then [] else [("encapsulation", OExpr.litNum (encCode enc2))]
  let dataEntry :=
    match meta.animations with
    | some a => [("data", OExpr.litMap [("animation", a)])]
    | none => []
  let cdEntry :=
    match meta.changeDetection with
    | some cd =>
      if cd == .Default then [] else [("changeDetection", OExpr.litNum (cdCode cd))]
    | none => []
  { fields := fields0 ++ attrsEntry ++ viewQueryEntry ++
      [("consts", OExpr.litNum (ext.templateConstCount meta.templateNodes)),
       ("vars", OExpr.litNum (ext.templateVarCount meta.templateNodes)),
       ("template", ext.templateFn meta.templateNodes)] ++
      directivesEntry ++ pipesEntry ++ stylesEntry ++ encEntry ++ dataEntry ++ cdEntry,
    statements := base.2,
    metaAfter := { meta with encapsulation := some enc2 } }

/-- CompileTokenMetadata as used by the legacy query adapter: an optional
string selector value and an optional type identifier expression. -/
structure CompileTokenMetadata where
  value : Option String
  identifier : Option OExpr

/-- Truthiness of the value field of a token under JavaScript semantics:
a present, nonempty string. -/
def truthyValue (v : Option String) : Bool :=
  match v with
  | some s => s ≠ ""
  | none => false

/-- selectorsFromGlobalMetadata of the source: more than one selector, or
exactly one with a truthy string value, takes the string path, which fails
when any selector lacks a truthy string value and otherwise pools the
literal string array; exactly one selector with a type identifier yields
that expression; every other shape fails with the unexpected-query-form
error. -/
def selectorsFromGlobalMetadata (ext : Externals) (selectors : List CompileTokenMetadata) :
    Except String OExpr :=
  if selectors.length > 1 ||
      (selectors.length == 1 && truthyValue ((selectors.headD ⟨none, none⟩).value)) then
    if selectors.any (fun t => !truthyValue t.value) then
      .error "Found a type among the string selectors expected"
    else
      .ok (ext.getConstLiteral
        (.litArr (selectors.map (fun t => OExpr.lit (t.value.getD "")))) false)
  else
    match selectors with
    | [first] =>
      match first.identifier with
      | some id => .ok id
      | none => .error "Unexpected query form"
    | _ => .error "Unexpected query form"

/-- Evaluation of the small expression fragment used for query-list index
arguments: variables from an environment, numeric literals, and
addition. -/
def evalIndexExpr (env : String → Option Nat) : OExpr → Option Nat
  | .varRef n => env n
  | .litNum n => some n
  | .plus a b =>
    match evalIndexExpr env a, evalIndexExpr env b with
    | some x, some y => some (x + y)
    | _, _ => none
  | _ => none

/-- A concrete instantiation of the external collaborators, used to
evaluate the compiler on concrete metadata: opaque results are wrapped
expressions, interning returns its argument, and converters produce no
auxiliary statements. -/
def exExt : Externals where
  factory := fun _ _ => .wrapped 100
  factoryStatements := fun _ _ => []
  parseSelectorToR3Selector := fun _ => .wrapped 101
  firstSelectorAttrs := fun _ => []
  getConstLiteral := fun e _ => e
  templateFn := fun n => .wrapped n
  templateConstCount := fun _ => 0
  templateVarCount := fun _ => 0
  templateDirectivesUsed := fun _ _ => []
  templatePipesUsed := fun _ _ => []
  shimStyles := fun ss => ss
  convertPropertyBinding := fun n => ([], .wrapped n)
  convertActionBinding := fun _ => []
  queryPredicate := fun e => e

/-- The last written value for a key under JavaScript object assignment
semantics over an ordered attribute list. -/
def lastWrite (key : String) (attrs : List (String × String)) : Option String :=
  attrs.foldl (fun acc kv => if kv.1 = key then some kv.2 else acc) none

/-- A host metadata with no attributes, listeners or properties. -/
def emptyHost : R3HostMetadata :=
  ⟨[], [], []⟩

/-- A minimal concrete directive metadata used to evaluate the compiler. -/
def exDirMeta : R3DirectiveMetadata :=
  ⟨some "MyDir", .wrapped 1, 0, some "[my-dir]", [], [], false, emptyHost, [], [], false,
    none, none⟩

/-- Directive metadata with two non-styling host property bindings followed
by one styling binding. -/
def exC1Meta : R3DirectiveMetadata :=
  { exDirMeta with host := ⟨[], [], [("foo", 0), ("bar", 1), ("style.width.px", 2)]⟩ }

/-- Directive metadata with one content query binding the full list. -/
def exC5Meta : R3DirectiveMetadata :=
  { exDirMeta with
    name := some "ItemsHolder"
    queries := [⟨"items", false, .wrapped 5, true, none⟩] }

/-- Directive metadata with a single style.width.px host property
binding. -/
def exC6Meta : R3DirectiveMetadata :=
  { exDirMeta with host := ⟨[], [], [("style.width.px", 2)]⟩ }

/-- Directive metadata with empty input and output maps. -/
def exC7Meta : R3DirectiveMetadata :=
  { exDirMeta with
    inputs := []
    outputs := [] }

/-- Directive metadata with one input and no outputs. -/
def exC7ScenarioMeta : R3DirectiveMetadata :=
  { exDirMeta with
    inputs := [("foo", .single "foo")]
    outputs := [] }

/-- A minimal concrete component metadata used to evaluate the compiler. -/
def exCompBase : R3ComponentMetadata :=
  { toR3DirectiveMetadata := exDirMeta
    templateNodes := 0
    viewQueries := []
    directives := []
    pipes := []
    styles := []
    encapsulation := none
    changeDetection := none
    animations := none
    viewProviders := none
    wrapDirectivesAndPipesInClosure := false }

/-- Component metadata with emulated encapsulation and an empty style
list. -/
def exC3Meta : R3ComponentMetadata :=
  { exCompBase with encapsulation := some .Emulated }

/-- Component metadata with emulated encapsulation and an empty style
list, for the frame-effect claim. -/
def exC9Meta : R3ComponentMetadata :=
  { exCompBase with encapsulation := some .Emulated }

/-- Directive metadata without providers, for the features claim. -/
def exC4Meta : R3DirectiveMetadata :=
  exDirMeta

/-- The inheritance and on-changes tail of the feature list. -/
def inheritOnChangesPart (meta : R3DirectiveMetadata) : List OExpr :=
  (if meta.usesInheritance then [OExpr.imp "InheritDefinitionFeature"] else []) ++
  (if meta.usesOnChanges then [OExpr.imp "NgOnChangesFeature"] else [])

theorem splitAtFirst_of_not_mem (c : Char) (l : List Char) (h : c ∉ l) :
    splitAtFirst c l = none := by
  induction l with
  | nil => rfl
  | cons x xs ih =>
    simp only [List.mem_cons, not_or] at h
    simp [splitAtFirst, Ne.symm h.1, h.1, ih h.2]

theorem splitAtFirst_append (c : Char) (a b : List Char) (h : c ∉ a) :
    splitAtFirst c (a ++ c :: b) = some (a, b) := by
  induction a with
  | nil => simp [splitAtFirst]
  | cons x xs ih =>
    simp only [List.mem_cons, not_or] at h
    simp [splitAtFirst, Ne.symm h.1, ih h.2]

theorem splitAtLast_of_not_mem (c : Char) (l : List Char) (h : c ∉ l) :
    splitAtLast c l = none := by
  unfold splitAtLast
  rw [splitAtFirst_of_not_mem c l.reverse (by simpa using h)]

theorem splitAtLast_append (c : Char) (a b : List Char) (h : c ∉ b) :
    splitAtLast c (a ++ c :: b) = some (a, b) := by
  unfold splitAtLast
  rw [show (a ++ c :: b).reverse = b.reverse ++ c :: a.reverse by simp]
  rw [splitAtFirst_append c b.reverse a.reverse (by simpa using h)]
  simp

theorem parseNamedPropertyL_three (a b c : List Char) (ha : '.' ∉ a) (hc : '.' ∉ c)
    (hne : a ≠ []) : parseNamedPropertyL (a ++ '.' :: (b ++ '.' :: c)) = (b, c) := by
  unfold parseNamedPropertyL
  rw [splitAtFirst_append '.' a (b ++ '.' :: c) ha]
  simp only [hne, if_false]
  rw [splitAtLast_append '.' b c hc]

theorem parseNamedPropertyL_two (a b : List Char) (ha : '.' ∉ a) (hb : '.' ∉ b)
    (hne : a ≠ []) : parseNamedPropertyL (a ++ '.' :: b) = (b, []) := by
  unfold parseNamedPropertyL
  rw [splitAtFirst_append '.' a b ha]
  simp only [hne, if_false]
  rw [splitAtLast_of_not_mem '.' b hb]

theorem parseNamedPropertyL_none (a : List Char) (h : '.' ∉ a) :
    parseNamedPropertyL a = ([], []) := by
  unfold parseNamedPropertyL
  rw [splitAtFirst_of_not_mem '.' a h]

/-- C6: a styling host-binding name splits on the first versus last dot:
with three dot-separated segments the middle one is the property and the
last one the unit, with exactly two segments the second is the property
and the unit is empty, and a name without a dot yields empty property and
unit; consequently the host binding key between square brackets around
style.width.px is classified as a property binding on style.width.px, and
a directive carrying that binding registers the dynamic style input width
with unit px and emits the corresponding dynamic style update
instruction. -/
theorem c6_parse_named_property_and_style_width_px (ext : Externals) (e : Nat) :
    (∀ (name : String) (a b c : List Char),
        name.toList = a ++ '.' :: (b ++ '.' :: c) → '.' ∉ a → '.' ∉ b → '.' ∉ c → a ≠ [] →
        parseNamedProperty name = (String.mk b, String.mk c))
  ∧ (∀ (name : String) (a b : List Char),
        name.toList = a ++ '.' :: b → '.' ∉ a → '.' ∉ b → a ≠ [] →
        parseNamedProperty name = (String.mk b, ""))
  ∧ (∀ name : String, '.' ∉ name.toList → parseNamedProperty name = ("", ""))
  ∧ (∀ v : String,
        (parseHostBindings [("[style.width.px]", v)]).properties = [("style.width.px", v)])
  ∧ (∀ meta : R3DirectiveMetadata,
        meta.host.properties = [("style.width.px", e)] → meta.host.attributes = [] →
          (hostBindingsDataOf ext meta).styling.entries = [.styleProp "width" "px" e] ∧
          (hostBindingsDataOf ext meta).updateStatements =
            [.expr (.call (.imp "elementStyleProp")
              [.varRef "elIndex", .lit "width", (ext.convertPropertyBinding e).2,
               .lit "px"])]) := by
  refine ⟨?_, ?_, ?_, ?_, ?_⟩
  · intro name a b c hn ha _hb hc hne
    unfold parseNamedProperty
    rw [hn, parseNamedPropertyL_three a b c ha hc hne]
  · intro name a b hn ha hb hne
    unfold parseNamedProperty
    rw [hn, parseNamedPropertyL_two a b ha hb hne]
  · intro name h
    unfold parseNamedProperty
    rw [parseNamedPropertyL_none name.toList h]
  · intro v
    rfl
  · intro meta h1 h2
    constructor
    · simp only [hostBindingsDataOf, hostBindingsData, hostBindingsLoop,
        registerHostAttributes, initStylingBuilder, h1, h2, hostBindingStep,
        List.foldl_nil, List.foldl_cons]
      rfl
    · simp only [hostBindingsDataOf, hostBindingsData, hostBindingsLoop,
        registerHostAttributes, initStylingBuilder, h1, h2, hostBindingStep,
        hasBindingsOrInitialValues, List.foldl_nil, List.foldl_cons]
      rfl

/-- Witness for C6 at concrete inputs: the name style.width.px decomposes
into three dot-free segments and parses to property width with unit px,
and the directive with that single host binding registers exactly the
width.px style entry. -/
theorem c6_witness :
    ("style.width.px").toList =
        ['s','t','y','l','e'] ++ '.' :: (['w','i','d','t','h'] ++ '.' :: ['p','x'])
  ∧ parseNamedProperty "style.width.px" = (String.mk ['w','i','d','t','h'], String.mk ['p','x'])
  ∧ (parseHostBindings [("[style.width.px]", "exp")]).properties = [("style.width.px", "exp")]
  ∧ (hostBindingsDataOf exExt exC6Meta).styling.entries = [.styleProp "width" "px" 2] := by
  have h := c6_parse_named_property_and_style_width_px exExt 2
  refine ⟨by decide, ?_, ?_, ?_⟩
  · exact h.1 "style.width.px" ['s','t','y','l','e'] ['w','i','d','t','h'] ['p','x']
      (by decide) (by decide) (by decide) (by decide) (by decide)
  · exact h.2.2.2.1 "exp"
  · exact (h.2.2.2.2 exC6Meta rfl rfl).1

/-- C8: query-predicate resolution from legacy selector tokens: two or
more selectors, or exactly one with a truthy (nonempty) string value, take
the string path, which pools the string array as a constant literal when
every selector carries a truthy string and fails with the
type-among-string-selectors error otherwise; exactly one selector carrying
a type identifier yields that expression directly; any other shape fails
with the unexpected-query-form error. -/
theorem c8_selectors_from_global_metadata (ext : Externals)
    (selectors : List CompileTokenMetadata) :
    ((selectors.length > 1 ∨
        (selectors.length = 1 ∧
          truthyValue (selectors.headD ⟨none, none⟩).value = true)) →
      ((∃ t ∈ selectors, truthyValue t.value = false) →
          selectorsFromGlobalMetadata ext selectors =
            .error "Found a type among the string selectors expected")
      ∧ ((∀ t ∈ selectors, truthyValue t.value = true) →
          selectorsFromGlobalMetadata ext selectors =
            .ok (ext.getConstLiteral
              (.litArr (selectors.map (fun t => OExpr.lit (t.value.getD "")))) false)))
  ∧ (∀ first : CompileTokenMetadata, selectors = [first] →
        truthyValue first.value = false →
      ((∀ id, first.identifier = some id →
          selectorsFromGlobalMetadata ext selectors = .ok id)
      ∧ (first.identifier = none →
          selectorsFromGlobalMetadata ext selectors = .error "Unexpected query form")))
  ∧ (selectors = [] →
      selectorsFromGlobalMetadata ext selectors = .error "Unexpected query form") := by
  refine ⟨?_, ?_, ?_⟩
  · intro hcond
    have hb : (selectors.length > 1 ||
        (selectors.length == 1 &&
          truthyValue ((selectors.headD ⟨none, none⟩).value))) = true := by
      rcases hcond with h | ⟨h1, h2⟩
      · simp [h]
      · simp only [List.headD_eq_head?] at h2
        simp [h1, h2]
    constructor
    · intro ⟨t, ht, hf⟩
      unfold selectorsFromGlobalMetadata
      rw [if_pos (by simpa using hb)]
      rw [if_pos (by simp only [List.any_eq_true]; exact ⟨t, ht, by simp [hf]⟩)]
    · intro hall
      unfold selectorsFromGlobalMetadata
      rw [if_pos (by simpa using hb)]
      rw [if_neg (by simp only [List.any_eq_true]; rintro ⟨t, ht, hf⟩; simp [hall t ht] at hf)]
  · rintro first rfl hf
    constructor
    · intro id hid
      unfold selectorsFromGlobalMetadata
      rw [if_neg (by simp [hf])]
      simp [hid]
    · intro hid
      unfold selectorsFromGlobalMetadata
      rw [if_neg (by simp [hf])]
      simp [hid]
  · rintro rfl
    rfl

/-- Witness for C8 at concrete inputs: two string selectors pool the
string array, one type selector yields the type expression, the empty
selector list is an unexpected query form, and a type mixed among string
selectors is the type-among-string-selectors error. -/
theorem c8_witness :
    selectorsFromGlobalMetadata exExt [⟨some "a", none⟩, ⟨some "b", none⟩] =
        .ok (.litArr [.lit "a", .lit "b"])
  ∧ selectorsFromGlobalMetadata exExt [⟨none, some (.wrapped 3)⟩] = .ok (.wrapped 3)
  ∧ selectorsFromGlobalMetadata exExt [] = .error "Unexpected query form"
  ∧ selectorsFromGlobalMetadata exExt [⟨some "a", none⟩, ⟨none, some (.wrapped 3)⟩] =
        .error "Found a type among the string selectors expected" := by
  refine ⟨?_, ?_, ?_, ?_⟩
  · exact ((c8_selectors_from_global_metadata exExt
      [⟨some "a", none⟩, ⟨some "b", none⟩]).1 (Or.inl (by decide))).2 (by decide)
  · exact (((c8_selectors_from_global_metadata exExt
      [⟨none, some (.wrapped 3)⟩]).2.1 ⟨none, some (.wrapped 3)⟩ rfl (by decide)).1
      (.wrapped 3) rfl)
  · exact (c8_selectors_from_global_metadata exExt []).2.2 rfl
  · exact ((c8_selectors_from_global_metadata exExt
      [⟨some "a", none⟩, ⟨none, some (.wrapped 3)⟩]).1 (Or.inl (by decide))).1
      ⟨⟨none, some (.wrapped 3)⟩, List.mem_cons_of_mem _ (List.mem_cons_self _ _), by decide⟩

/-- C5: for a directive with queries, the compiled content-queries refresh
function contains, at the position of the query declared at index k (after
the instance and temporary declarations), a statement that loads the query
list at an argument evaluating to queryStartIndex plus k, calls the
refresh primitive on it, and assigns onto the instance property named by
the propertyName of the query either the first element when first is set
or the full query list otherwise. -/
theorem c5_content_queries_refresh (meta : R3DirectiveMetadata) (k : Nat)
    (q : R3QueryMetadata) (hq : meta.queries.get? k = some q) (qsi : Nat) :
    ∃ stmts, createContentQueriesRefreshFunction meta =
        some (.fnE ["dirIndex", "queryStartIndex"] stmts
          (meta.name.map (fun n => n ++ "_ContentQueriesRefresh")))
      ∧ stmts.get? (2 + k) = some (contentQueryRefreshStmt q k)
      ∧ evalIndexExpr (fun n => if n = "queryStartIndex" then some qsi else none)
          (contentQueryLoadArg k) = some (qsi + k)
      ∧ contentQueryRefreshStmt q k = .expr (.andE
          (.call (.imp "queryRefresh")
            [.assign (.varRef "_t") (.call (.imp "loadQueryList") [contentQueryLoadArg k])])
          (.assign (.prop (.varRef "instance") q.propertyName)
            (if q.first then .prop (.varRef "_t") "first" else .varRef "_t"))) := by
  refine ⟨[.declFinal "instance" (.call (.imp "load") [.varRef "dirIndex"]),
      .declVar "_t"] ++
      meta.queries.enum.map (fun p => contentQueryRefreshStmt p.2 p.1), ?_, ?_, ?_, rfl⟩
  · cases hq' : meta.queries with
    | nil => rw [hq'] at hq; simp at hq
    | cons a t =>
      unfold createContentQueriesRefreshFunction
      rw [hq']
  · rw [show 2 + k = k + 1 + 1 by omega]
    simp only [List.cons_append, List.nil_append, List.get?_cons_succ]
    rw [List.get?_map, List.get?_enum, hq]
    rfl
  · cases k with
    | zero => simp [contentQueryLoadArg, evalIndexExpr]
    | succ m => simp [contentQueryLoadArg, evalIndexExpr]

/-- Witness for C5 at a concrete directive: the query with propertyName
items and first false sits at declaration position zero, its refresh
statement loads at the bare queryStartIndex (evaluating to
queryStartIndex plus zero) and assigns the full query list. -/
theorem c5_witness :
    exC5Meta.queries.get? 0 = some ⟨"items", false, .wrapped 5, true, none⟩
  ∧ (∃ stmts, createContentQueriesRefreshFunction exC5Meta =
        some (.fnE ["dirIndex", "queryStartIndex"] stmts
          (exC5Meta.name.map (fun n => n ++ "_ContentQueriesRefresh")))
      ∧ stmts.get? (2 + 0) =
          some (contentQueryRefreshStmt ⟨"items", false, .wrapped 5, true, none⟩ 0)
      ∧ evalIndexExpr (fun n => if n = "queryStartIndex" then some 7 else none)
          (contentQueryLoadArg 0) = some (7 + 0)
      ∧ contentQueryRefreshStmt ⟨"items", false, .wrapped 5, true, none⟩ 0 = .expr (.andE
          (.call (.imp "queryRefresh")
            [.assign (.varRef "_t") (.call (.imp "loadQueryList") [contentQueryLoadArg 0])])
          (.assign (.prop (.varRef "instance") "items")
            (if false then .prop (.varRef "_t") "first" else .varRef "_t")))) :=
  ⟨rfl, c5_content_queries_refresh exC5Meta 0 ⟨"items", false, .wrapped 5, true, none⟩ rfl 7⟩

theorem dmLookup_skip (k k' : String) (v : Option OExpr) (rest : List (String × OExpr))
    (h : k' ≠ k) : dmLookup k (dmEntry k' v ++ rest) = dmLookup k rest := by
  have h' : (k' == k) = false := by simp [h]
  cases v with
  | none => rfl
  | some e => simp [dmLookup, dmEntry, List.find?_cons, h']

theorem dmLookup_here (k : String) (e : OExpr) (rest : List (String × OExpr)) :
    dmLookup k (dmEntry k (some e) ++ rest) = some e := by
  simp [dmLookup, dmEntry, List.find?_cons]

theorem dmLookup_one (k k' : String) (v : Option OExpr) (h : k' ≠ k) :
    dmLookup k (dmEntry k' v) = none := by
  have h' : (k' == k) = false := by simp [h]
  cases v with
  | none => rfl
  | some e => simp [dmLookup, dmEntry, List.find?_cons, h']

theorem dmLookup_entry (k : String) (v : Option OExpr) (rest : List (String × OExpr))
    (hrest : dmLookup k rest = none) : dmLookup k (dmEntry k v ++ rest) = v := by
  cases v with
  | none => simpa [dmEntry] using hrest
  | some e => exact dmLookup_here k e rest

theorem dmLookup_inputs (ext : Externals) (meta : R3DirectiveMetadata) :
    dmLookup "inputs" (baseDirectiveFields ext meta).1 =
      conditionallyCreateMapObjectLiteral meta.inputs true := by
  simp only [baseDirectiveFields, List.append_assoc]
  rw [dmLookup_skip "inputs" "type" _ _ (by decide),
    dmLookup_skip "inputs" "selectors" _ _ (by decide),
    dmLookup_skip "inputs" "factory" _ _ (by decide),
    dmLookup_skip "inputs" "contentQueries" _ _ (by decide),
    dmLookup_skip "inputs" "contentQueriesRefresh" _ _ (by decide),
    dmLookup_skip "inputs" "attributes" _ _ (by decide),
    dmLookup_skip "inputs" "hostBindings" _ _ (by decide)]
  rw [dmLookup_entry "inputs" _ _ ?_]
  rw [dmLookup_skip "inputs" "outputs" _ _ (by decide)]
  exact dmLookup_one "inputs" "exportAs" _ (by decide)

theorem dmLookup_outputs (ext : Externals) (meta : R3DirectiveMetadata) :
    dmLookup "outputs" (baseDirectiveFields ext meta).1 =
      conditionallyCreateMapObjectLiteral
        (meta.outputs.map (fun kv => (kv.1, InputValue.single kv.2))) false := by
  simp only [baseDirectiveFields, List.append_assoc]
  rw [dmLookup_skip "outputs" "type" _ _ (by decide),
    dmLookup_skip "outputs" "selectors" _ _ (by decide),
    dmLookup_skip "outputs" "factory" _ _ (by decide),
    dmLookup_skip "outputs" "contentQueries" _ _ (by decide),
    dmLookup_skip "outputs" "contentQueriesRefresh" _ _ (by decide),
    dmLookup_skip "outputs" "attributes" _ _ (by decide),
    dmLookup_skip "outputs" "hostBindings" _ _ (by decide),
    dmLookup_skip "outputs" "inputs" _ _ (by decide)]
  rw [dmLookup_entry "outputs" _ _ ?_]
  exact dmLookup_one "outputs" "exportAs" _ (by decide)

theorem dmLookup_attributes (ext : Externals) (meta : R3DirectiveMetadata) :
    dmLookup "attributes" (baseDirectiveFields ext meta).1 =
      createHostAttributesArray (registerHostAttributes meta.host.attributes).2 := by
  simp only [baseDirectiveFields, List.append_assoc]
  rw [dmLookup_skip "attributes" "type" _ _ (by decide),
    dmLookup_skip "attributes" "selectors" _ _ (by decide),
    dmLookup_skip "attributes" "factory" _ _ (by decide),
    dmLookup_skip "attributes" "contentQueries" _ _ (by decide),
    dmLookup_skip "attributes" "contentQueriesRefresh" _ _ (by decide)]
  rw [dmLookup_entry "attributes" _ _ ?_]
  rw [dmLookup_skip "attributes" "hostBindings" _ _ (by decide),
    dmLookup_skip "attributes" "inputs" _ _ (by decide),
    dmLookup_skip "attributes" "outputs" _ _ (by decide)]
  exact dmLookup_one "attributes" "exportAs" _ (by decide)

/-- C7 counterexample: for a directive whose input map is empty, the
inputs field is absent from the emitted definition map, refuting the claim
that the inputs field is always emitted even when the inputs map is
empty. -/
theorem c7_counterexample :
    exC7Meta.inputs = [] ∧
    dmLookup "inputs" (baseDirectiveFields exExt exC7Meta).1 = none := by
  exact ⟨rfl, by rw [dmLookup_inputs]; rfl⟩

/-- C7 amended: the inputs and the outputs field are each emitted exactly
when the corresponding map is nonempty, the asymmetry between them being
that input values may take the renamed-tuple form, which the inputs field
serializes with the declared name kept while outputs are always plain
strings; in particular metadata with inputs mapping foo to foo and empty
outputs yields an inputs field and no outputs field. -/
theorem c7_inputs_outputs_emission (ext : Externals) (meta : R3DirectiveMetadata) :
    (dmLookup "inputs" (baseDirectiveFields ext meta).1 =
      (if meta.inputs.isEmpty then none else some (mapToExpression meta.inputs true)))
  ∧ (dmLookup "outputs" (baseDirectiveFields ext meta).1 =
      (if meta.outputs.isEmpty then none
       else some (mapToExpression
         (meta.outputs.map (fun kv => (kv.1, InputValue.single kv.2))) false)))
  ∧ (∀ k pub decl rest, meta.inputs = (k, InputValue.tuple pub decl) :: rest →
      dmLookup "inputs" (baseDirectiveFields ext meta).1 =
        some (.litMap ((k, OExpr.litArr [.lit pub, .lit decl]) ::
          (rest.map (fun kv =>
            match kv.2 with
            | .single v => (kv.1, OExpr.lit v)
            | .tuple p d => (kv.1, OExpr.litArr [.lit p, .lit d]))))))
  ∧ (meta.inputs = [("foo", .single "foo")] → meta.outputs = [] →
      dmLookup "inputs" (baseDirectiveFields ext meta).1 =
          some (.litMap [("foo", .lit "foo")]) ∧
        dmLookup "outputs" (baseDirectiveFields ext meta).1 = none) := by
  refine ⟨?_, ?_, ?_, ?_⟩
  · rw [dmLookup_inputs]
    unfold conditionallyCreateMapObjectLiteral
    rfl
  · rw [dmLookup_outputs]
    unfold conditionallyCreateMapObjectLiteral
    cases meta.outputs with
    | nil => rfl
    | cons a t => rfl
  · intro k pub decl rest hin
    rw [dmLookup_inputs, hin]
    rfl
  · intro hin hout
    constructor
    · rw [dmLookup_inputs, hin]
      rfl
    · rw [dmLookup_outputs, hout]
      rfl

/-- Witness for C7 at the concrete scenario metadata: inputs mapping foo
to foo with empty outputs yields an inputs field holding the literal map
and no outputs field. -/
theorem c7_witness :
    exC7ScenarioMeta.inputs = [("foo", .single "foo")]
  ∧ exC7ScenarioMeta.outputs = []
  ∧ dmLookup "inputs" (baseDirectiveFields exExt exC7ScenarioMeta).1 =
      some (.litMap [("foo", .lit "foo")])
  ∧ dmLookup "outputs" (baseDirectiveFields exExt exC7ScenarioMeta).1 = none := by
  have h := (c7_inputs_outputs_emission exExt exC7ScenarioMeta).2.2.2 rfl rfl
  exact ⟨rfl, rfl, h.1, h.2⟩

theorem registerHostAttributes_others (attrs : List (String × String)) :
    (registerHostAttributes attrs).2 =
      attrs.filter (fun kv => kv.1 != "style" && kv.1 != "class") := by
  unfold registerHostAttributes
  suffices h : ∀ (sb : StylingBuilderState) (acc : List (String × String)),
      (attrs.foldl
        (fun acc kv =>
          if kv.1 = "style" then ({ acc.1 with styleAttr := some kv.2 }, acc.2)
          else if kv.1 = "class" then ({ acc.1 with classAttr := some kv.2 }, acc.2)
          else (acc.1, acc.2 ++ [kv])) (sb, acc)).2 =
        acc ++ attrs.filter (fun kv => kv.1 != "style" && kv.1 != "class") by
    simpa using h initStylingBuilder []
  induction attrs with
  | nil => intro sb acc; simp
  | cons kv t ih =>
    intro sb acc
    by_cases h1 : kv.1 = "style"
    · simp [h1, List.foldl_cons, ih]
    · by_cases h2 : kv.1 = "class"
      · simp [h1, h2, List.foldl_cons, ih]
      · simp [h1, h2, List.foldl_cons, ih]

theorem registerHostAttributes_styleAttr (attrs : List (String × String)) :
    (registerHostAttributes attrs).1.styleAttr = lastWrite "style" attrs := by
  unfold registerHostAttributes lastWrite
  suffices h : ∀ (sb : StylingBuilderState) (acc : List (String × String)),
      (attrs.foldl
        (fun acc kv =>
          if kv.1 = "style" then ({ acc.1 with styleAttr := some kv.2 }, acc.2)
          else if kv.1 = "class" then ({ acc.1 with classAttr := some kv.2 }, acc.2)
          else (acc.1, acc.2 ++ [kv])) (sb, acc)).1.styleAttr =
        attrs.foldl (fun a kv => if kv.1 = "style" then some kv.2 else a) sb.styleAttr by
    exact h initStylingBuilder []
  induction attrs with
  | nil => intro sb acc; rfl
  | cons kv t ih =>
    intro sb acc
    by_cases h1 : kv.1 = "style"
    · simp [h1, List.foldl_cons, ih]
    · by_cases h2 : kv.1 = "class"
      · simp [h1, h2, List.foldl_cons, ih]
      · simp [h1, h2, List.foldl_cons, ih]

theorem registerHostAttributes_classAttr (attrs : List (String × String)) :
    (registerHostAttributes attrs).1.classAttr = lastWrite "class" attrs := by
  unfold registerHostAttributes lastWrite
  suffices h : ∀ (sb : StylingBuilderState) (acc : List (String × String)),
      (attrs.foldl
        (fun acc kv =>
          if kv.1 = "style" then ({ acc.1 with styleAttr := some kv.2 }, acc.2)
          else if kv.1 = "class" then ({ acc.1 with classAttr := some kv.2 }, acc.2)
          else (acc.1, acc.2 ++ [kv])) (sb, acc)).1.classAttr =
        attrs.foldl (fun a kv => if kv.1 = "class" then some kv.2 else a) sb.classAttr by
    exact h initStylingBuilder []
  induction attrs with
  | nil => intro sb acc; rfl
  | cons kv t ih =>
    intro sb acc
    by_cases h1 : kv.1 = "style"
    · simp [h1, List.foldl_cons, ih]
    · by_cases h2 : kv.1 = "class"
      · simp [h1, h2, List.foldl_cons, ih]
      · simp [h1, h2, List.foldl_cons, ih]

theorem attrsFlatten (l : List (String × String)) :
    l.foldl (fun acc kv => acc ++ [OExpr.lit kv.1, OExpr.lit kv.2]) [] =
      l.bind (fun kv => [OExpr.lit kv.1, OExpr.lit kv.2]) := by
  suffices h : ∀ init : List OExpr,
      l.foldl (fun acc kv => acc ++ [OExpr.lit kv.1, OExpr.lit kv.2]) init =
        init ++ l.bind (fun kv => [OExpr.lit kv.1, OExpr.lit kv.2]) by
    simpa using h []
  induction l with
  | nil => intro init; simp
  | cons kv t ih => intro init; simp [List.foldl_cons, ih]

/-- C10: static host attributes other than style and class are emitted
under the attributes field as a flat literal array alternating names and
values in input property order, the field being omitted when no such
attribute exists, while the static style and class attribute values are
routed to the styling builder (each holding the last written value) and
never appear in the array. -/
theorem c10_static_host_attributes (ext : Externals) (meta : R3DirectiveMetadata) :
    (dmLookup "attributes" (baseDirectiveFields ext meta).1 =
      (if (meta.host.attributes.filter
            (fun kv => kv.1 != "style" && kv.1 != "class")).isEmpty then none
       else some (.litArr ((meta.host.attributes.filter
          (fun kv => kv.1 != "style" && kv.1 != "class")).bind
            (fun kv => [OExpr.lit kv.1, OExpr.lit kv.2])))))
  ∧ ((registerHostAttributes meta.host.attributes).2.map Prod.fst).all
      (fun n => n != "style" && n != "class") = true
  ∧ (registerHostAttributes meta.host.attributes).1.styleAttr =
      lastWrite "style" meta.host.attributes
  ∧ (registerHostAttributes meta.host.attributes).1.classAttr =
      lastWrite "class" meta.host.attributes := by
  refine ⟨?_, ?_, registerHostAttributes_styleAttr _, registerHostAttributes_classAttr _⟩
  · rw [dmLookup_attributes]
    unfold createHostAttributesArray
    rw [registerHostAttributes_others, attrsFlatten]
    cases hfe : meta.host.attributes.filter
        (fun kv => kv.1 != "style" && kv.1 != "class") with
    | nil => simp
    | cons a t => simp [List.cons_bind]
  · rw [registerHostAttributes_others]
    simp only [List.all_eq_true, List.mem_map]
    rintro n ⟨kv, hkv, rfl⟩
    exact (List.mem_filter.mp hkv).2

/-- C4 counterexample: for a directive without providers but with a
viewProviders expression, the emitted feature list is a ProvidersFeature
call whose first argument is an empty literal array and whose second
positional argument is the viewProviders expression, refuting the claim
that viewProviders is attached only when providers is also attached. -/
theorem c4_counterexample :
    exC4Meta.providers = none ∧
    featureList exC4Meta (some (.wrapped 9)) =
      [.call (.imp "ProvidersFeature") [.litArr [], .wrapped 9]] :=
  ⟨rfl, rfl⟩

/-- C4 amended: the features field is the composition, in this exact
order, of the ProvidersFeature call (present exactly when providers or
viewProviders is present, its first argument being providers or an empty
literal array when providers is absent, and viewProviders attached as the
positional second argument exactly when viewProviders is present), the
inheritance feature (exactly when usesInheritance) and the on-changes
feature (exactly when the lifecycle flag is set); the whole features field
is omitted when the list is empty. -/
theorem c4_features_composition (fields : List (String × OExpr))
    (meta : R3DirectiveMetadata) (vp : Option OExpr) :
    (addFeatures fields meta vp =
      (if (featureList meta vp).isEmpty then fields
       else fields ++ [("features", .litArr (featureList meta vp))]))
  ∧ (∀ p v, meta.providers = some p → vp = some v →
      featureList meta vp =
        .call (.imp "ProvidersFeature") [p, v] :: inheritOnChangesPart meta)
  ∧ (∀ v, meta.providers = none → vp = some v →
      featureList meta vp =
        .call (.imp "ProvidersFeature") [.litArr [], v] :: inheritOnChangesPart meta)
  ∧ (∀ p, meta.providers = some p → vp = none →
      featureList meta vp =
        .call (.imp "ProvidersFeature") [p] :: inheritOnChangesPart meta)
  ∧ (meta.providers = none → vp = none → featureList meta vp = inheritOnChangesPart meta)
  ∧ (meta.usesInheritance = true → meta.usesOnChanges = true →
      inheritOnChangesPart meta =
        [.imp "InheritDefinitionFeature", .imp "NgOnChangesFeature"]) := by
  refine ⟨?_, ?_, ?_, ?_, ?_, ?_⟩
  · unfold addFeatures
    cases hf : featureList meta vp with
    | nil => simp
    | cons a t => simp
  · intro p v hp hv
    simp [featureList, providersFeatureArgs, inheritOnChangesPart, hp, hv]
  · intro v hp hv
    simp [featureList, providersFeatureArgs, inheritOnChangesPart, hp, hv]
  · intro p hp hv
    simp [featureList, providersFeatureArgs, inheritOnChangesPart, hp, hv]
  · intro hp hv
    simp [featureList, inheritOnChangesPart, hp, hv]
  · intro h1 h2
    simp [inheritOnChangesPart, h1, h2]

/-- Witness for C4 at concrete inputs: with providers present,
viewProviders present, inheritance and the on-changes flag set, the
feature list is the ProvidersFeature call with both arguments followed by
the inheritance feature and the on-changes feature, and the features field
is appended to the definition map. -/
theorem c4_witness :
    featureList
        { exDirMeta with
          providers := some (.wrapped 4)
          usesInheritance := true
          usesOnChanges := true } (some (.wrapped 9)) =
      [.call (.imp "ProvidersFeature") [.wrapped 4, .wrapped 9],
       .imp "InheritDefinitionFeature", .imp "NgOnChangesFeature"]
  ∧ addFeatures []
      { exDirMeta with
        providers := some (.wrapped 4)
        usesInheritance := true
        usesOnChanges := true } (some (.wrapped 9)) =
      [("features", .litArr
        [.call (.imp "ProvidersFeature") [.wrapped 4, .wrapped 9],
         .imp "InheritDefinitionFeature", .imp "NgOnChangesFeature"])] := by
  have h := c4_features_composition []
    { exDirMeta with
      providers := some (.wrapped 4)
      usesInheritance := true
      usesOnChanges := true } (some (.wrapped 9))
  have h2 := h.2.1 (.wrapped 4) (.wrapped 9) rfl rfl
  have h6 := h.2.2.2.2.2 rfl rfl
  refine ⟨?_, ?_⟩
  · rw [h2, h6]
  · rw [h.1, h2, h6]
    rfl

/-- C3 counterexample: compiling a concrete component with emulated
encapsulation and an empty style list emits the encapsulation field with
the numeric code of None rather than omitting it, refuting the omission
part of the claim. -/
theorem c3_counterexample :
    exC3Meta.encapsulation = some .Emulated ∧ exC3Meta.styles = [] ∧
    dmLookup "encapsulation" (compileComponentFromMetadata exExt exC3Meta).fields =
      some (.litNum (encCode .None)) :=
  ⟨rfl, rfl, rfl⟩

/-- C3 amended: compiling a component with emulated encapsulation and an
empty style list resolves the encapsulation to None, emits the
encapsulation field with the numeric code of None (the field is only
omitted when the resolved mode is Emulated), and produces a result
identical to the one obtained by explicitly passing encapsulation None
with no styles. -/
theorem c3_emulated_no_styles_equals_none (ext : Externals) (meta : R3ComponentMetadata)
    (h1 : meta.encapsulation = some .Emulated) (h2 : meta.styles = []) :
    compileComponentFromMetadata ext meta =
      compileComponentFromMetadata ext { meta with encapsulation := some ViewEncapsulation.None }
  ∧ (compileComponentFromMetadata ext meta).metaAfter.encapsulation =
      some ViewEncapsulation.None
  ∧ ("encapsulation", OExpr.litNum (encCode .None)) ∈
      (compileComponentFromMetadata ext meta).fields := by
  obtain ⟨dir, tn, vq, dirs, pipes, styles, enc, cd, anim, vprov, wrap⟩ := meta
  simp only at h1 h2
  subst h1 h2
  refine ⟨rfl, rfl, ?_⟩
  simp [compileComponentFromMetadata, List.mem_append]

/-- Witness for C3 at the concrete component metadata with emulated
encapsulation and no styles. -/
theorem c3_witness :
    exC3Meta.encapsulation = some ViewEncapsulation.Emulated
  ∧ exC3Meta.styles = []
  ∧ (compileComponentFromMetadata exExt exC3Meta =
      compileComponentFromMetadata exExt
        { exC3Meta with encapsulation := some ViewEncapsulation.None }
    ∧ (compileComponentFromMetadata exExt exC3Meta).metaAfter.encapsulation =
        some ViewEncapsulation.None
    ∧ ("encapsulation", OExpr.litNum (encCode .None)) ∈
        (compileComponentFromMetadata exExt exC3Meta).fields) :=
  ⟨rfl, rfl, c3_emulated_no_styles_equals_none exExt exC3Meta rfl rfl⟩

/-- C9 counterexample: compileComponentFromMetadata writes the resolved
encapsulation back onto its input metadata: for a concrete component with
emulated encapsulation and no styles the metadata field afterwards holds
None, refuting the claim that every field of the input metadata (including
encapsulation) is unchanged. -/
theorem c9_counterexample :
    exC9Meta.encapsulation = some .Emulated ∧
    (compileComponentFromMetadata exExt exC9Meta).metaAfter.encapsulation =
      some .None ∧
    (compileComponentFromMetadata exExt exC9Meta).metaAfter.encapsulation ≠
      exC9Meta.encapsulation := by
  refine ⟨rfl, rfl, ?_⟩
  intro h
  rw [show (compileComponentFromMetadata exExt exC9Meta).metaAfter.encapsulation =
      some ViewEncapsulation.None from rfl] at h
  rw [show exC9Meta.encapsulation = some ViewEncapsulation.Emulated from rfl] at h
  simp at h

/-- C9 amended: the only write compilation performs on its input metadata
is the component path reassigning the encapsulation field to its resolved
value (missing defaults to Emulated, Emulated without styles downgrades to
None); every other metadata field is left unchanged, and the directive
path leaves the metadata untouched. -/
theorem c9_metadata_frame (ext : Externals) (meta : R3ComponentMetadata)
    (dm : R3DirectiveMetadata) :
    (compileComponentFromMetadata ext meta).metaAfter =
      { meta with
        encapsulation := some (resolveEncapsulation meta.encapsulation meta.styles) }
  ∧ (compileComponentFromMetadata ext meta).metaAfter.toR3DirectiveMetadata =
      meta.toR3DirectiveMetadata
  ∧ (compileComponentFromMetadata ext meta).metaAfter.templateNodes = meta.templateNodes
  ∧ (compileComponentFromMetadata ext meta).metaAfter.viewQueries = meta.viewQueries
  ∧ (compileComponentFromMetadata ext meta).metaAfter.directives = meta.directives
  ∧ (compileComponentFromMetadata ext meta).metaAfter.pipes = meta.pipes
  ∧ (compileComponentFromMetadata ext meta).metaAfter.styles = meta.styles
  ∧ (compileComponentFromMetadata ext meta).metaAfter.changeDetection = meta.changeDetection
  ∧ (compileComponentFromMetadata ext meta).metaAfter.animations = meta.animations
  ∧ (compileComponentFromMetadata ext meta).metaAfter.viewProviders = meta.viewProviders
  ∧ (compileComponentFromMetadata ext meta).metaAfter.wrapDirectivesAndPipesInClosure =
      meta.wrapDirectivesAndPipesInClosure
  ∧ (compileComponentFromMetadata ext meta).metaAfter.encapsulation =
      some (resolveEncapsulation meta.encapsulation meta.styles)
  ∧ (compileDirectiveFromMetadata ext dm).metaAfter = dm :=
  ⟨rfl, rfl, rfl, rfl, rfl, rfl, rfl, rfl, rfl, rfl, rfl, rfl, rfl⟩

theorem registerHostAttributes_entries (attrs : List (String × String)) :
    (registerHostAttributes attrs).1.entries = [] := by
  unfold registerHostAttributes
  suffices h : ∀ (sb : StylingBuilderState) (acc : List (String × String)),
      (attrs.foldl
        (fun acc kv =>
          if kv.1 = "style" then ({ acc.1 with styleAttr := some kv.2 }, acc.2)
          else if kv.1 = "class" then ({ acc.1 with classAttr := some kv.2 }, acc.2)
          else (acc.1, acc.2 ++ [kv])) (sb, acc)).1.entries = sb.entries by
    simpa [initStylingBuilder] using h initStylingBuilder []
  induction attrs with
  | nil => intro sb acc; rfl
  | cons kv t ih =>
    intro sb acc
    by_cases h1 : kv.1 = "style"
    · simp [h1, List.foldl_cons, ih]
    · by_cases h2 : kv.1 = "class"
      · simp [h1, h2, List.foldl_cons, ih]
      · simp [h1, h2, List.foldl_cons, ih]

theorem hostBindingStep_foldl_entries_length (ext : Externals) (l : List (String × Nat))
    (sb : StylingBuilderState) (us : List OStmt) :
    ((l.foldl (hostBindingStep ext) (sb, us)).1).entries.length =
      sb.entries.length + (l.filter (fun b => isStylingBinding b.1)).length := by
  induction l generalizing sb us with
  | nil => simp
  | cons b t ih =>
    rw [List.foldl_cons]
    by_cases h1 : getStylingStart b.1 = "style"
    · have hs : isStylingBinding b.1 = true := by simp [isStylingBinding, h1]
      rw [ih]
      simp [hostBindingStep, h1, hs, List.filter_cons]
      omega
    · by_cases h2 : getStylingStart b.1 = "class"
      · have hs : isStylingBinding b.1 = true := by simp [isStylingBinding, h2]
        rw [ih]
        simp [hostBindingStep, h1, h2, hs, List.filter_cons]
        omega
      · have hs : isStylingBinding b.1 = false := by simp [isStylingBinding, h1, h2]
        rw [ih]
        simp [hostBindingStep, h1, h2, hs, List.filter_cons]

/-- C1: for host property bindings consisting of N non-styling bindings
followed by M styling bindings, the total host-variable count threaded by
the host-bindings compiler equals N plus M, and when the total is nonzero
the slot-allocation instruction is the first statement of the create block
of the generated hostBindings function. -/
theorem c1_host_vars_total_and_alloc_first (ext : Externals) (meta : R3DirectiveMetadata)
    (ns ms : List (String × Nat)) (hsplit : meta.host.properties = ns ++ ms)
    (hns : ∀ p ∈ ns, isStylingBinding p.1 = false)
    (hms : ∀ p ∈ ms, isStylingBinding p.1 = true) :
    (hostBindingsDataOf ext meta).totalHostVarsCount = ns.length + ms.length
  ∧ ((hostBindingsDataOf ext meta).totalHostVarsCount ≠ 0 →
      (hostBindingsCreateBlock (hostBindingsEntry ext meta)).head? =
        some (allocHostVarsStmt (ns.length + ms.length))) := by
  have hN : hostVarsCountOf meta = ns.length := by
    unfold hostVarsCountOf
    rw [hsplit, List.map_append, List.filter_append, List.length_append]
    have e1 : (ns.map Prod.fst).filter (fun name => !isStylingBinding name) =
        ns.map Prod.fst := by
      rw [List.filter_eq_self]
      intro a ha
      rcases List.mem_map.mp ha with ⟨p, hp, rfl⟩
      simp [hns p hp]
    have e2 : (ms.map Prod.fst).filter (fun name => !isStylingBinding name) = [] := by
      rw [List.filter_eq_nil]
      intro a ha
      rcases List.mem_map.mp ha with ⟨p, hp, rfl⟩
      simp [hms p hp]
    rw [e1, e2]
    simp
  have hMf : (meta.host.properties.filter (fun b => isStylingBinding b.1)) = ms := by
    rw [hsplit, List.filter_append]
    have e1 : ns.filter (fun b => isStylingBinding b.1) = [] := by
      rw [List.filter_eq_nil]
      intro p hp
      simp [hns p hp]
    have e2 : ms.filter (fun b => isStylingBinding b.1) = ms := by
      rw [List.filter_eq_self]
      intro p hp
      simp [hms p hp]
    rw [e1, e2, List.nil_append]
  have hsb0 : (registerHostAttributes meta.host.attributes).1.entries = [] :=
    registerHostAttributes_entries _
  have hlen : ((hostBindingsLoop ext meta
      (registerHostAttributes meta.host.attributes).1).1).entries.length = ms.length := by
    unfold hostBindingsLoop
    rw [hostBindingStep_foldl_entries_length, hsb0, hMf]
    simp
  have htotal : (hostBindingsDataOf ext meta).totalHostVarsCount = ns.length + ms.length := by
    unfold hostBindingsDataOf hostBindingsData
    simp only []
    by_cases hst : hasBindingsOrInitialValues
        (hostBindingsLoop ext meta (registerHostAttributes meta.host.attributes).1).1 = true
    · simp only [hst, if_true, hN, hlen]
    · have hf : hasBindingsOrInitialValues
          (hostBindingsLoop ext meta (registerHostAttributes meta.host.attributes).1).1 =
            false := by
        revert hst
        cases hasBindingsOrInitialValues
          (hostBindingsLoop ext meta (registerHostAttributes meta.host.attributes).1).1 <;>
            simp
      have hz : ((hostBindingsLoop ext meta
          (registerHostAttributes meta.host.attributes).1).1).entries.length = 0 := by
        unfold hasBindingsOrInitialValues at hf
        rcases Bool.or_eq_false_iff.mp hf with ⟨-, h2⟩
        simp only [Bool.not_eq_false'] at h2
        simp [List.isEmpty_iff.mp h2]
      rw [hf]
      simp only [Bool.false_eq_true, if_false, Nat.add_zero, hN]
      omega
  refine ⟨htotal, ?_⟩
  intro hne
  have hcreate : (hostBindingsDataOf ext meta).createStatements =
      allocHostVarsStmt (ns.length + ms.length) ::
        (meta.host.listeners.map (fun kv => hostListenerStmt ext meta.name kv.1 kv.2) ++
          (if hasBindingsOrInitialValues (hostBindingsLoop ext meta
              (registerHostAttributes meta.host.attributes).1).1 then
            stylingCreateStmts (hostBindingsLoop ext meta
              (registerHostAttributes meta.host.attributes).1).1
           else [])) := by
    have hne' : (hostBindingsDataOf ext meta).totalHostVarsCount ≠ 0 := hne
    unfold hostBindingsDataOf hostBindingsData at hne' ⊢
    simp only [] at hne' ⊢
    rw [if_pos hne']
    rw [show hostVarsCountOf meta + (if hasBindingsOrInitialValues (hostBindingsLoop ext meta
        (registerHostAttributes meta.host.attributes).1).1 then ((hostBindingsLoop ext meta
        (registerHostAttributes meta.host.attributes).1).1).entries.length else 0) =
        ns.length + ms.length from htotal]
  unfold hostBindingsEntry createHostBindingsFunction
  simp only []
  rw [show hostBindingsData ext meta (registerHostAttributes meta.host.attributes).1
      (hostVarsCountOf meta) = hostBindingsDataOf ext meta from rfl]
  rw [hcreate]
  simp [hostBindingsCreateBlock]

/-- Witness for C1 at a concrete directive with two non-styling host
property bindings followed by one styling binding: the total host-variable
count is three and the allocation instruction heads the create block. -/
theorem c1_witness :
    exC1Meta.host.properties = [("foo", 0), ("bar", 1)] ++ [("style.width.px", 2)]
  ∧ (∀ p ∈ [(("foo", 0) : String × Nat), ("bar", 1)], isStylingBinding p.1 = false)
  ∧ (∀ p ∈ [(("style.width.px", 2) : String × Nat)], isStylingBinding p.1 = true)
  ∧ (hostBindingsDataOf exExt exC1Meta).totalHostVarsCount = 2 + 1
  ∧ ((hostBindingsDataOf exExt exC1Meta).totalHostVarsCount ≠ 0 →
      (hostBindingsCreateBlock (hostBindingsEntry exExt exC1Meta)).head? =
        some (allocHostVarsStmt (2 + 1))) := by
  have h := c1_host_vars_total_and_alloc_first exExt exC1Meta
    [("foo", 0), ("bar", 1)] [("style.width.px", 2)] rfl (by decide) (by decide)
  exact ⟨rfl, by decide, by decide, h.1, h.2⟩

theorem map_fst_overwrite (m : List (String × String)) (k v : String) :
    (m.map (fun p => if p.1 = k then (k, v) else p)).map Prod.fst = m.map Prod.fst := by
  induction m with
  | nil => rfl
  | cons p t ih =>
    simp only [List.map_cons]
    rw [ih]
    congr 1
    by_cases hp : p.1 = k
    · simp [hp]
    · simp [hp]

theorem keysOf_objInsert (m : List (String × String)) (k v a : String) :
    a ∈ keysOf (objInsert m k v) ↔ a ∈ keysOf m ∨ a = k := by
  unfold objInsert keysOf
  by_cases h : (m.map Prod.fst).contains k
  · have hk : k ∈ m.map Prod.fst := by simpa using h
    simp only [h, if_true]
    rw [map_fst_overwrite]
    constructor
    · exact fun h1 => Or.inl h1
    · rintro (h1 | rfl)
      · exact h1
      · exact hk
  · simp only [h, if_false]
    simp [List.mem_append]

theorem parseStep_foldl_properties (host : List (String × String))
    (acc : ParsedHostBindings) (n : String) :
    n ∈ keysOf ((host.foldl parseStep acc).properties) ↔
      n ∈ keysOf acc.properties ∨ ∃ kv ∈ host, classifyHostKey kv.1 = .property n := by
  induction host generalizing acc with
  | nil => simp
  | cons a t ih =>
    rw [List.foldl_cons, ih]
    have hstep : n ∈ keysOf (parseStep acc a).properties ↔
        n ∈ keysOf acc.properties ∨ classifyHostKey a.1 = .property n := by
      unfold parseStep
      cases hcl : classifyHostKey a.1 with
      | property m => simp [keysOf_objInsert, eq_comm]
      | listener m => simp
      | animation m => simp
      | attr => simp
    rw [hstep]
    simp only [List.mem_cons, exists_eq_or_imp]
    tauto

theorem parseStep_foldl_listeners (host : List (String × String))
    (acc : ParsedHostBindings) (n : String) :
    n ∈ keysOf ((host.foldl parseStep acc).listeners) ↔
      n ∈ keysOf acc.listeners ∨ ∃ kv ∈ host, classifyHostKey kv.1 = .listener n := by
  induction host generalizing acc with
  | nil => simp
  | cons a t ih =>
    rw [List.foldl_cons, ih]
    have hstep : n ∈ keysOf (parseStep acc a).listeners ↔
        n ∈ keysOf acc.listeners ∨ classifyHostKey a.1 = .listener n := by
      unfold parseStep
      cases hcl : classifyHostKey a.1 with
      | property m => simp
      | listener m => simp [keysOf_objInsert, eq_comm]
      | animation m => simp
      | attr => simp
    rw [hstep]
    simp only [List.mem_cons, exists_eq_or_imp]
    tauto

theorem parseStep_foldl_animations (host : List (String × String))
    (acc : ParsedHostBindings) (n : String) :
    n ∈ keysOf ((host.foldl parseStep acc).animations) ↔
      n ∈ keysOf acc.animations ∨ ∃ kv ∈ host, classifyHostKey kv.1 = .animation n := by
  induction host generalizing acc with
  | nil => simp
  | cons a t ih =>
    rw [List.foldl_cons, ih]
    have hstep : n ∈ keysOf (parseStep acc a).animations ↔
        n ∈ keysOf acc.animations ∨ classifyHostKey a.1 = .animation n := by
      unfold parseStep
      cases hcl : classifyHostKey a.1 with
      | property m => simp
      | listener m => simp
      | animation m => simp [keysOf_objInsert, eq_comm]
      | attr => simp
    rw [hstep]
    simp only [List.mem_cons, exists_eq_or_imp]
    tauto

theorem parseStep_foldl_attributes (host : List (String × String))
    (acc : ParsedHostBindings) (n : String) :
    n ∈ keysOf ((host.foldl parseStep acc).attributes) ↔
      n ∈ keysOf acc.attributes ∨
        ∃ kv ∈ host, classifyHostKey kv.1 = .attr ∧ kv.1 = n := by
  induction host generalizing acc with
  | nil => simp
  | cons a t ih =>
    rw [List.foldl_cons, ih]
    have hstep : n ∈ keysOf (parseStep acc a).attributes ↔
        n ∈ keysOf acc.attributes ∨ (classifyHostKey a.1 = .attr ∧ a.1 = n) := by
      unfold parseStep
      cases hcl : classifyHostKey a.1 with
      | property m => simp
      | listener m => simp
      | animation m => simp
      | attr => simp [keysOf_objInsert, eq_comm]
    rw [hstep]
    simp only [List.mem_cons, exists_eq_or_imp]
    tauto

theorem takeWhile_all (p : Char → Bool) (l : List Char) (h : ∀ c ∈ l, p c = true) :
    l.takeWhile p = l := by
  induction l with
  | nil => rfl
  | cons c t ih =>
    simp [List.takeWhile_cons, h c (List.mem_cons_self c t),
      ih (fun d hd => h d (List.mem_cons_of_mem c hd))]

theorem takeWhile_append_of_all (p : Char → Bool) (a : List Char) (x : Char)
    (b : List Char) (ha : ∀ c ∈ a, p c = true) (hx : p x = false) :
    (a ++ x :: b).takeWhile p = a := by
  induction a with
  | nil => simp [List.takeWhile_cons, hx]
  | cons c t ih =>
    simp [List.takeWhile_cons, ha c (List.mem_cons_self c t),
      ih (fun d hd => ha d (List.mem_cons_of_mem c hd))]

theorem animGroup_suffix (s t : List Char) (ht : t ≠ [])
    (hall : ∀ c ∈ t, wordOrDash c = true) : animGroup (s ++ '@' :: t) = some ('@' :: t) := by
  simp only [animGroup]
  rw [show (s ++ '@' :: t).reverse = t.reverse ++ '@' :: s.reverse by simp]
  rw [takeWhile_append_of_all wordOrDash t.reverse '@' s.reverse
    (fun c hc => hall c (List.mem_reverse.mp hc)) (by decide)]
  rw [List.drop_left]
  simp [ht]

theorem animGroup_all_word (t : List Char) (hall : ∀ c ∈ t, wordOrDash c = true) :
    animGroup t = none := by
  simp only [animGroup]
  rw [takeWhile_all wordOrDash t.reverse (fun c hc => hall c (List.mem_reverse.mp hc))]
  rw [List.drop_length]

theorem classify_bracket (pre rest : List Char) (hne : pre ≠ []) (hmem : ']' ∉ pre) :
    classifyHostKey (String.mk ('[' :: (pre ++ ']' :: rest))) =
      .property (String.mk pre) := by
  unfold classifyHostKey
  rw [show (String.mk ('[' :: (pre ++ ']' :: rest))).toList =
    '[' :: (pre ++ ']' :: rest) from rfl]
  simp only [matchHostKey, if_pos]
  rw [splitAtFirst_append ']' pre rest hmem]
  simp [hne]

theorem classify_paren (pre rest : List Char) (hne : pre ≠ []) (hmem : ')' ∉ pre) :
    classifyHostKey (String.mk ('(' :: (pre ++ ')' :: rest))) =
      .listener (String.mk pre) := by
  unfold classifyHostKey
  rw [show (String.mk ('(' :: (pre ++ ')' :: rest))).toList =
    '(' :: (pre ++ ')' :: rest) from rfl]
  simp only [matchHostKey, if_true]
  rw [splitAtFirst_append ')' pre rest hmem]
  simp [hne]

theorem classify_animation (t : List Char) (ht : t ≠ [])
    (hall : ∀ c ∈ t, wordOrDash c = true) :
    classifyHostKey (String.mk ('@' :: t)) = .animation (String.mk ('@' :: t)) := by
  have hag : animGroup ('@' :: t) = some ('@' :: t) := by
    simpa using animGroup_suffix [] t ht hall
  unfold classifyHostKey
  rw [show (String.mk ('@' :: t)).toList = '@' :: t from rfl]
  simp [matchHostKey, hag]

theorem classify_plain (t : List Char) (ht : t ≠ [])
    (hall : ∀ c ∈ t, wordOrDash c = true) :
    classifyHostKey (String.mk t) = .attr := by
  cases t with
  | nil => exact absurd rfl ht
  | cons c cs =>
    have hc : wordOrDash c = true := hall c (List.mem_cons_self c cs)
    have h1 : ¬(c = '[') := by
      intro h
      rw [h] at hc
      exact absurd hc (by decide)
    have h2 : ¬(c = '(') := by
      intro h
      rw [h] at hc
      exact absurd hc (by decide)
    have hag : animGroup (c :: cs) = none := animGroup_all_word (c :: cs) hall
    unfold classifyHostKey
    rw [show (String.mk (c :: cs)).toList = c :: cs from rfl]
    simp [matchHostKey, hag, h1, h2]

/-- C2: parseHostBindings classifies every key of the host map by the
fixed regex precedence (square-bracket form to property, parenthesis form
to event listener, at-sign suffix form to animation trigger, anything else
to static attribute); it is total and pure (equal inputs give identical
partitions), every key of the input lands, under its classification, in
exactly the corresponding one of the four output maps (cover), and each
output map only holds keys whose source key was classified for it
(disjointness of the classification). -/
theorem c2_parse_host_bindings_partition (host : List (String × String)) :
    (∀ h2 : List (String × String), h2 = host →
      parseHostBindings h2 = parseHostBindings host)
  ∧ (∀ kv ∈ host,
      (∀ n, classifyHostKey kv.1 = .property n →
        n ∈ keysOf (parseHostBindings host).properties)
    ∧ (∀ n, classifyHostKey kv.1 = .listener n →
        n ∈ keysOf (parseHostBindings host).listeners)
    ∧ (∀ n, classifyHostKey kv.1 = .animation n →
        n ∈ keysOf (parseHostBindings host).animations)
    ∧ (classifyHostKey kv.1 = .attr →
        kv.1 ∈ keysOf (parseHostBindings host).attributes))
  ∧ (∀ n, n ∈ keysOf (parseHostBindings host).properties →
      ∃ kv ∈ host, classifyHostKey kv.1 = .property n)
  ∧ (∀ n, n ∈ keysOf (parseHostBindings host).listeners →
      ∃ kv ∈ host, classifyHostKey kv.1 = .listener n)
  ∧ (∀ n, n ∈ keysOf (parseHostBindings host).animations →
      ∃ kv ∈ host, classifyHostKey kv.1 = .animation n)
  ∧ (∀ n, n ∈ keysOf (parseHostBindings host).attributes →
      ∃ kv ∈ host, classifyHostKey kv.1 = .attr ∧ kv.1 = n)
  ∧ (∀ pre rest, pre ≠ [] → ']' ∉ pre →
      classifyHostKey (String.mk ('[' :: (pre ++ ']' :: rest))) =
        .property (String.mk pre))
  ∧ (∀ pre rest, pre ≠ [] → ')' ∉ pre →
      classifyHostKey (String.mk ('(' :: (pre ++ ')' :: rest))) =
        .listener (String.mk pre))
  ∧ (∀ t, t ≠ [] → (∀ c ∈ t, wordOrDash c = true) →
      classifyHostKey (String.mk ('@' :: t)) = .animation (String.mk ('@' :: t)))
  ∧ (∀ t, t ≠ [] → (∀ c ∈ t, wordOrDash c = true) →
      classifyHostKey (String.mk t) = .attr) := by
  refine ⟨?_, ?_, ?_, ?_, ?_, ?_, classify_bracket, classify_paren, classify_animation,
    classify_plain⟩
  · intro h2 h
    rw [h]
  · intro kv hkv
    refine ⟨?_, ?_, ?_, ?_⟩
    · intro n hcl
      exact (parseStep_foldl_properties host ⟨[], [], [], []⟩ n).mpr
        (Or.inr ⟨kv, hkv, hcl⟩)
    · intro n hcl
      exact (parseStep_foldl_listeners host ⟨[], [], [], []⟩ n).mpr
        (Or.inr ⟨kv, hkv, hcl⟩)
    · intro n hcl
      exact (parseStep_foldl_animations host ⟨[], [], [], []⟩ n).mpr
        (Or.inr ⟨kv, hkv, hcl⟩)
    · intro hcl
      exact (parseStep_foldl_attributes host ⟨[], [], [], []⟩ kv.1).mpr
        (Or.inr ⟨kv, hkv, hcl, rfl⟩)
  · intro n hn
    rcases (parseStep_foldl_properties host ⟨[], [], [], []⟩ n).mp hn with h | h
    · simp [keysOf] at h
    · exact h
  · intro n hn
    rcases (parseStep_foldl_listeners host ⟨[], [], [], []⟩ n).mp hn with h | h
    · simp [keysOf] at h
    · exact h
  · intro n hn
    rcases (parseStep_foldl_animations host ⟨[], [], [], []⟩ n).mp hn with h | h
    · simp [keysOf] at h
    · exact h
  · intro n hn
    rcases (parseStep_foldl_attributes host ⟨[], [], [], []⟩ n).mp hn with h | h
    · simp [keysOf] at h
    · exact h

/-- Witness for C2 at a concrete host map holding one key of each
structural form: each key lands in the bucket of its classification, and
the concrete bracket form classifies as a property. -/
theorem c2_witness :
    classifyHostKey "[foo]" = .property "foo"
  ∧ "foo" ∈ keysOf (parseHostBindings
      [("[foo]", "a"), ("(ev)", "b"), ("@an", "c"), ("plain", "d")]).properties
  ∧ "ev" ∈ keysOf (parseHostBindings
      [("[foo]", "a"), ("(ev)", "b"), ("@an", "c"), ("plain", "d")]).listeners
  ∧ "@an" ∈ keysOf (parseHostBindings
      [("[foo]", "a"), ("(ev)", "b"), ("@an", "c"), ("plain", "d")]).animations
  ∧ "plain" ∈ keysOf (parseHostBindings
      [("[foo]", "a"), ("(ev)", "b"), ("@an", "c"), ("plain", "d")]).attributes
  ∧ classifyHostKey (String.mk ('[' :: (['f', 'o', 'o'] ++ ']' :: []))) =
      .property (String.mk ['f', 'o', 'o']) := by
  have h := c2_parse_host_bindings_partition
    [("[foo]", "a"), ("(ev)", "b"), ("@an", "c"), ("plain", "d")]
  refine ⟨by decide, ?_, ?_, ?_, ?_, ?_⟩
  · exact (h.2.1 ("[foo]", "a") (by decide)).1 "foo" (by decide)
  · exact (h.2.1 ("(ev)", "b") (by decide)).2.1 "ev" (by decide)
  · exact (h.2.1 ("@an", "c") (by decide)).2.2.1 "@an" (by decide)
  · exact (h.2.1 ("plain", "d") (by decide)).2.2.2 (by decide)
  · exact h.2.2.2.2.2.2.1 ['f', 'o', 'o'] [] (by decide) (by decide)
